import Mathlib

/-!
Verification development for the ansible-packer repository.

The embedding below translates the two Python source files,
src/library/packer.py (the Packer module) and
src/action_plugins/packer.py (the ActionModule dispatcher), into Lean.
External effects (subprocess results, environment variables, the session
login lookup) are passed in explicitly as data, following the way the
module itself receives them through an injected runner.  A Python
expression that can raise an exception is modelled with the PyRes type,
whose exn constructor stands for the raised exception (IndexError or
KeyError, noted at each site).
-/

namespace Packer

/-- Result of a Python expression that may raise an unhandled exception.
The exn constructor marks the exception; ok carries the normal value. -/
inductive PyRes (α : Type) where
  | ok : α → PyRes α
  | exn : PyRes α
deriving DecidableEq, Repr

/-- Characters matched by the Python regex class backslash-s and stripped
by str.strip, restricted to ASCII: space, tab, newline, carriage return,
vertical tab, form feed. -/
def isPySpace (c : Char) : Bool :=
  c == ' ' || c == '\t' || c == '\n' || c == '\r' || c == '\x0b' || c == '\x0c'

/-- Python str.strip with no argument: remove leading and trailing
whitespace characters. -/
def pyStrip (s : String) : String :=
  String.mk (((s.data.dropWhile isPySpace).reverse.dropWhile isPySpace).reverse)

/-- Splitting a character list on newline characters, the groups between
separators kept in order; the empty list yields one empty group. -/
def splitOnNl : List Char → List (List Char)
  | [] => [[]]
  | c :: rest =>
    let r := splitOnNl rest
    if c = '\n' then [] :: r
    else
      match r with
      | [] => [[c]]
      | g :: gs => (c :: g) :: gs

/-- Python str.splitlines restricted to the newline separator, which is
the only separator occurring in the modelled tool output: the empty
string yields no lines, and a trailing newline does not produce a final
empty line. -/
def splitlines (s : String) : List String :=
  match s.data with
  | [] => []
  | cs =>
    let parts := (splitOnNl cs).map String.mk
    if cs.getLast? = some '\n' then parts.dropLast else parts

/-- Python truthiness of an optional boolean: None is falsy. -/
def truthy : Option Bool → Bool
  | none => false
  | some b => b

/-- Python percent-s string formatting of a value that may be None. -/
def pctS : Option String → String
  | some s => s
  | none => "None"

/-- Whether re.match with pattern caret-backslash-s succeeds on the line:
the line begins with a whitespace character. -/
def startsWithSpace (line : String) : Bool :=
  match line.data with
  | [] => false
  | c :: _ => isPySpace c

/-- The continuation-folding loop of Packer.package_info: a line starting
with whitespace is appended (stripped, with a space separator) to the
previous accumulated line; when there is no previous line the IndexError
is caught and the stripped line starts a new entry; any other line is
stripped and appended as a new entry.  The accumulator is kept reversed
and reversed once at the end. -/
def accLines (acc : List String) : List String → List String
  | [] => acc.reverse
  | line :: rest =>
    if startsWithSpace line then
      match acc with
      | [] => accLines [pyStrip line] rest
      | prev :: tl => accLines ((prev ++ " " ++ pyStrip line) :: tl) rest
    else
      accLines (pyStrip line :: acc) rest

/-- Position j is a possible delimiter of the regex
caret group-dot-star backslash-s-plus colon backslash-s-star group-dot-star:
the character at j is a colon and the character at j - 1 is whitespace. -/
def isSplitPoint (cs : List Char) (j : Nat) : Bool :=
  match cs.get? j with
  | some c =>
    if c == ':' then
      match j with
      | 0 => false
      | k + 1 =>
        match cs.get? k with
        | some d => isPySpace d
        | none => false
    else false
  | none => false

/-- The delimiter position actually chosen by the regex match: because the
leading group-dot-star is greedy, the match backtracks from the right and
settles on the last position that is a split point. -/
def lastSplitPoint (cs : List Char) : Option Nat :=
  ((List.range cs.length).filter (fun j => isSplitPoint cs j)).getLast?

/-- Semantics of re.findall applied to one accumulated line, indexed at 0:
none models the IndexError raised when the regex does not match; on a
match the first group is everything before the single whitespace character
preceding the chosen colon (the greedy leading group forces the
backslash-s-plus run to one character), and the second group is the rest
of the line after the colon with the following whitespace run consumed by
backslash-s-star. -/
def findall_split (line : String) : Option (String × String) :=
  match lastSplitPoint line.data with
  | none => none
  | some j =>
    some (String.mk (line.data.take (j - 1)),
          String.mk ((line.data.drop (j + 1)).dropWhile isPySpace))

/-- Replacement pass of re.sub with pattern backslash-s-plus and
replacement underscore: each maximal whitespace run becomes a single
underscore.  The boolean records whether the previous character was part
of a whitespace run. -/
def collapseWsAux : Bool → List Char → List Char
  | _, [] => []
  | inWs, c :: rest =>
    if isPySpace c then
      if inWs then collapseWsAux true rest else '_' :: collapseWsAux true rest
    else
      c :: collapseWsAux false rest

/-- Key normalization of Packer.package_info: strip, collapse internal
whitespace to single underscores, lowercase. -/
def normKey (k : String) : String :=
  String.mk ((collapseWsAux false (pyStrip k).data).map Char.toLower)

/-- The list comprehension building kv_pairs: findall indexed at 0 on each
line; the first line with no match raises IndexError, modelled by none. -/
def mapFindall : List String → Option (List (String × String))
  | [] => some []
  | l :: rest =>
    match findall_split l with
    | none => none
    | some kv =>
      match mapFindall rest with
      | none => none
      | some kvs => some (kv :: kvs)

/-- Packer.package_info as a function of the metadata-query subprocess
result: non-zero exit returns None (package not found); on zero exit the
stdout is folded for continuations, blank accumulated lines are dropped,
each remaining line is split by the regex (IndexError propagates as exn),
and keys are normalized while values are stripped.  The resulting pair
list models the dict in insertion order, with lookups taking the last
binding of a key, matching later-keys-overwrite dict construction. -/
def package_info_of (rc : Nat) (stdout : String) :
    PyRes (Option (List (String × String))) :=
  if rc ≠ 0 then .ok none
  else
    match mapFindall ((accLines [] (splitlines stdout)).filter (fun l => l != "")) with
    | none => .exn
    | some kvs => .ok (some (kvs.map (fun kv => (normKey kv.1, pyStrip kv.2))))

/-- Packer.package_installed_version as a function of the query subprocess
result: non-zero exit means not installed (None); on zero exit the first
line of stdout is stripped and returned, and indexing an empty splitlines
list raises IndexError (exn). -/
def package_installed_version_of (rc : Nat) (stdout : String) :
    PyRes (Option String) :=
  if rc ≠ 0 then .ok none
  else
    match splitlines stdout with
    | [] => .exn
    | l :: _ => .ok (some (pyStrip l))

/-- Parsed remote metadata: the kv list underlying the dict built by
Packer.package_info. -/
abbrev Info := List (String × String)

/-- Packer.normalized_state: maps the state parameter to the string
"present" for present or installed, "latest" for latest, and None
otherwise. -/
def normalized_state (state : Option String) : Option String :=
  if state = some "present" ∨ state = some "installed" then some "present"
  else if state = some "latest" then some "latest"
  else none

/-- Packer.should_update: the body is the bare expression comparing
self.normalized_state, the bound method object itself rather than its
call, with the string "latest"; that comparison is always False and its
value is discarded, and since the method has no return statement it
returns None.  The model therefore returns the None value; callers test
its truthiness. -/
def should_update : Option Bool := none

/-- Python dict lookup on the kv list, with later bindings of a key
overwriting earlier ones as in dict construction: the last matching pair
wins, and a missing key raises KeyError (exn). -/
def dictGet (m : List (String × String)) (k : String) : PyRes String :=
  match (m.filter (fun kv => kv.1 == k)).getLast? with
  | some kv => .ok kv.2
  | none => .exn

/-- The per-package bucket decision inside the loop of
Packer.check_packages, after remote metadata was found: 0 selects
would_change, 1 selects already_present.  With should_update truthy, a
missing installed version or an installed version differing from the
metadata version field selects would_change (the dict access to the
version key can raise KeyError, but only if the installed version is
present, matching the short-circuit or); otherwise only a missing
installed version selects would_change. -/
def classify_one (su : Bool) (info : Info) (iv : Option String) : PyRes Nat :=
  if su then
    match iv with
    | none => .ok 0
    | some v =>
      match dictGet info "version" with
      | .exn => .exn
      | .ok rv => .ok (if v ≠ rv then 0 else 1)
  else
    match iv with
    | none => .ok 0
    | some _ => .ok 1

/-- Packer.check_packages: walks the requested names in order; pinfo and
pver stand for the bound methods package_info and
package_installed_version (whose behaviour as functions of the subprocess
result is package_info_of and package_installed_version_of).  A name
whose remote metadata query returns None goes to not_found with no
installed-version query; otherwise the installed version is queried and
classify_one picks the bucket.  Exceptions from any query or from the
version dict access abort the whole loop. -/
def check_packages (pinfo : String → PyRes (Option Info))
    (pver : String → PyRes (Option String)) (su : Bool) :
    List String → PyRes (List String × List String × List String)
  | [] => .ok ([], [], [])
  | name :: rest =>
    match pinfo name with
    | .exn => .exn
    | .ok none =>
      match check_packages pinfo pver su rest with
      | .exn => .exn
      | .ok (w, a, n) => .ok (w, a, name :: n)
    | .ok (some info) =>
      match pver name with
      | .exn => .exn
      | .ok iv =>
        match classify_one su info iv with
        | .exn => .exn
        | .ok b =>
          match check_packages pinfo pver su rest with
          | .exn => .exn
          | .ok (w, a, n) =>
            if b = 0 then .ok (name :: w, a, n) else .ok (w, name :: a, n)

/-- Terminal outcome of a run: exit_json with changed flag and message,
or fail_json with an error message. -/
inductive RunResult where
  | exitJson : Bool → String → RunResult
  | failJson : String → RunResult
deriving DecidableEq, Repr

/-- Packer.run: the name parameter defaults to the empty list when None;
check_packages partitions the names using the truthiness of the value
returned by should_update; the three message clauses are assembled, and
then check mode exits with the joined clauses, a non-empty not_found
bucket fails the run outside check mode, an unchanged run with no upgrade
request exits with the default message, and otherwise install (standing
for the bound method install_packages) receives the would_update bucket. -/
def run (check_mode : Bool) (state : Option String) (upgrade_param : Option Bool)
    (pinfo : String → PyRes (Option Info)) (pver : String → PyRes (Option String))
    (install : List String → RunResult) (name_param : Option (List String)) :
    PyRes RunResult :=
  let pkgs := name_param.getD []
  let nstate := normalized_state state
  match check_packages pinfo pver (truthy should_update) pkgs with
  | .exn => .exn
  | .ok (would_update, already_present, not_found) =>
    let changed : Bool := decide (1 ≤ would_update.length)
    let failed : Bool := decide (1 ≤ not_found.length)
    let would_update_msg :=
      if 1 ≤ would_update.length then
        "would update " ++ String.intercalate ", " would_update
      else "all packages already " ++ pctS nstate
    let already_present_msg : Option String :=
      if 1 ≤ already_present.length then
        some (String.intercalate ", " already_present ++ " already " ++ pctS nstate)
      else none
    let not_found_msg : Option String :=
      if 1 ≤ not_found.length then
        some ("could not find " ++ String.intercalate ", " not_found)
      else none
    if check_mode then
      .ok (.exitJson changed (String.intercalate "; "
        (([some would_update_msg, already_present_msg, not_found_msg]).filterMap id)))
    else if failed then
      .ok (.failJson (pctS not_found_msg))
    else if !changed && !(truthy upgrade_param) then
      .ok (.exitJson changed would_update_msg)
    else
      .ok (install would_update)

/-- Inputs consumed by Packer.login_name: the os.getlogin result, with
None standing for a raised OSError; the resolved path of the logname
executable; the exit code and stdout of running it; and the LOGNAME and
SUDO_USER environment variables. -/
structure LoginEnv where
  getlogin : Option String
  logname_path : Option String
  logname_rc : Nat
  logname_stdout : String
  LOGNAME : Option String
  SUDO_USER : Option String
deriving DecidableEq, Repr

/-- The part of the OSError handler of Packer.login_name before the
SUDO_USER step: the logname executable, when found, contributes the
stripped first line of its stdout on a zero exit with non-empty output
(the guard makes the splitlines list non-empty, so the index cannot
raise); when that left login_name as None, the LOGNAME environment
variable is consulted. -/
def login_name_fallback (e : LoginEnv) : Option String :=
  let l1 : Option String :=
    match e.logname_path with
    | some _ =>
      if e.logname_rc = 0 ∧ e.logname_stdout ≠ "" then
        some (pyStrip ((splitlines e.logname_stdout).headD ""))
      else none
    | none => none
  if l1 = none then e.LOGNAME else l1

/-- Packer.login_name: when os.getlogin succeeds its value is returned
unconditionally; only when it raises OSError do the fallbacks run, and
within that handler SUDO_USER replaces a result that is None or the
string "root" (keeping the prior result when SUDO_USER is unset). -/
def login_name (e : LoginEnv) : Option String :=
  match e.getlogin with
  | some s => some s
  | none =>
    let l2 := login_name_fallback e
    if l2 = none ∨ l2 = some "root" then
      match e.SUDO_USER with
      | some u => some u
      | none => l2
    else l2

/-- Inputs consumed by Packer.install_packages: the injected command
runner returning exit code, stdout and stderr; the resolved packer path;
the identity returned by login_name; the name of the current effective
user from the password database; the resolved sudo path; and the root
parameter. -/
structure ExecEnv where
  runCommand : String → Nat × String × String
  packer_path : String
  login_name : Option String
  current_user : String
  sudo_path : Option String
  root : Option String

/-- The switched_user test of Packer.install_packages: the current user
name is compared with the login_name result using Python inequality, so a
None login_name always counts as switched. -/
def switched_user (e : ExecEnv) : Bool :=
  decide (some e.current_user ≠ e.login_name)

/-- The base_cmd assembled by Packer.install_packages: a sudo -u prefix
when the user was switched, then the packer path, always the auronly,
noconfirm and noedit flags, and a root flag when the root parameter is
truthy (set and non-empty). -/
def base_cmd (e : ExecEnv) : String :=
  let b :=
    if switched_user e then
      pctS e.sudo_path ++ " -u " ++ pctS e.login_name ++ " " ++ e.packer_path
    else e.packer_path
  let b := b ++ " --auronly --noconfirm --noedit"
  match e.root with
  | some r => if r = "" then b else b ++ " --root " ++ r
  | none => b

/-- The per-package loop of Packer.install_packages: each name is
installed in order with a -S invocation; a non-zero exit fails the run
with a message naming the package and carrying the stderr, plus the
passwordless-sudo hint exactly when the user was not switched; on
success the counter advances and the final exit reports changed exactly
when at least one package was installed. -/
def install_loop (e : ExecEnv) (base : String) : List String → Nat → RunResult
  | [], total =>
    .exitJson (decide (1 ≤ total)) ("installed " ++ toString total ++ " package(s)")
  | name :: rest, total =>
    let r := e.runCommand (base ++ " -S " ++ name)
    if r.1 ≠ 0 then
      .failJson ("failed to install package " ++ name ++ ": " ++ r.2.2 ++
        (if switched_user e then ""
         else " (do you have passwordless sudo as user " ++ pctS e.login_name ++ "?)"))
    else
      install_loop e base rest (total + 1)

/-- Packer.install_packages: a None package list defaults to empty; a
switched user with no sudo executable is an immediate failure; with the
upgrade parameter truthy a single -Syu invocation runs first, a non-zero
exit failing the whole run before any per-package install, and a zero
exit with an empty package list exiting successfully at once; otherwise
the per-package loop runs. -/
def install_packages (e : ExecEnv) (upgrade : Bool)
    (pkgs_param : Option (List String)) : RunResult :=
  let pkgs := pkgs_param.getD []
  if switched_user e && e.sudo_path.isNone then
    .failJson "unable to locate sudo executable"
  else
    let base := base_cmd e
    if upgrade then
      let r := e.runCommand (base ++ " -Syu")
      if r.1 ≠ 0 then .failJson ("failed to upgrade packages: " ++ r.2.2)
      else if pkgs.length < 1 then .exitJson true "upgraded AUR packages"
      else install_loop e base pkgs 0
    else install_loop e base pkgs 0

/-- Python dict get on task arguments modelled as a kv list with
later-keys-overwrite semantics: the last binding wins, a missing key
gives None. -/
def lookupLast (args : List (String × String)) (k : String) : Option String :=
  ((args.filter (fun kv => kv.1 == k)).getLast?).map (fun kv => kv.2)

/-- Concrete environment where the bulk-upgrade invocation exits 1 with
stderr boom and every other command succeeds; the resolved identity
matches the current user, so no privilege switch happens. -/
def envBulkFail : ExecEnv :=
  { runCommand := fun c =>
      if c = "packer --auronly --noconfirm --noedit -Syu" then (1, "", "boom")
      else (0, "", "")
    packer_path := "packer", login_name := some "alice", current_user := "alice"
    sudo_path := none, root := none }

/-- Concrete environment where every command exits 0. -/
def envBulkOk : ExecEnv :=
  { runCommand := fun _ => (0, "", "")
    packer_path := "packer", login_name := some "alice", current_user := "alice"
    sudo_path := none, root := none }

/-- Concrete environment where installing package b exits 1 with stderr
boom and every other command succeeds. -/
def envInstallFail : ExecEnv :=
  { runCommand := fun c =>
      if c = "packer --auronly --noconfirm --noedit -S b" then (1, "", "boom")
      else (0, "", "")
    packer_path := "packer", login_name := some "alice", current_user := "alice"
    sudo_path := none, root := none }

/-! General lemmas about the embedded definitions. -/

theorem getLast?_mem_aux : ∀ {l : List Nat} {y : Nat}, l.getLast? = some y → y ∈ l := by
  intro l
  induction l with
  | nil => intro y h; simp at h
  | cons z tl ih =>
    intro y h
    cases tl with
    | nil => simp at h; simp [h]
    | cons w tl2 =>
      rw [List.getLast?_cons_cons] at h
      exact List.mem_cons_of_mem _ (ih h)

theorem getLast?_max_aux : ∀ {l : List Nat}, l.Pairwise (· < ·) →
    ∀ {x y : Nat}, x ∈ l → l.getLast? = some y → x ≤ y := by
  intro l
  induction l with
  | nil => intro _ x y hx; simp at hx
  | cons z tl ih =>
    intro hp x y hx hy
    cases tl with
    | nil =>
      simp at hy
      rcases List.mem_singleton.mp hx with h
      simp [h, hy]
    | cons w tl2 =>
      rw [List.getLast?_cons_cons] at hy
      rcases List.mem_cons.mp hx with h | h
      · subst h
        have hyz : y ∈ w :: tl2 := getLast?_mem_aux hy
        exact le_of_lt ((List.pairwise_cons.mp hp).1 y hyz)
      · exact ih (List.pairwise_cons.mp hp).2 h hy

theorem isSplitPoint_lt {cs : List Char} {j : Nat} (h : isSplitPoint cs j = true) :
    j < cs.length := by
  by_contra hlt
  have : cs.get? j = none := List.get?_eq_none.mpr (Nat.le_of_not_lt hlt)
  rw [isSplitPoint.eq_def, this] at h
  simp at h

theorem lastSplitPoint_spec {cs : List Char} {j : Nat}
    (h : isSplitPoint cs j = true) :
    ∃ j2, lastSplitPoint cs = some j2 ∧ isSplitPoint cs j2 = true ∧ j ≤ j2 ∧
      (∀ m, isSplitPoint cs m = true → m ≤ j2) := by
  have hmem : j ∈ (List.range cs.length).filter (fun i => isSplitPoint cs i) :=
    List.mem_filter.mpr ⟨List.mem_range.mpr (isSplitPoint_lt h), h⟩
  have hpair : ((List.range cs.length).filter (fun i => isSplitPoint cs i)).Pairwise (· < ·) :=
    List.Pairwise.filter _ (List.pairwise_lt_range _)
  have hne : (List.range cs.length).filter (fun i => isSplitPoint cs i) ≠ [] :=
    List.ne_nil_of_mem hmem
  cases hlast : ((List.range cs.length).filter (fun i => isSplitPoint cs i)).getLast? with
  | none => exact absurd (List.getLast?_eq_none_iff.mp hlast) hne
  | some j2 =>
    refine ⟨j2, hlast, ?_, ?_, ?_⟩
    · exact (List.mem_filter.mp (getLast?_mem_aux hlast)).2
    · exact getLast?_max_aux hpair hmem hlast
    · intro m hm
      exact getLast?_max_aux hpair
        (List.mem_filter.mpr ⟨List.mem_range.mpr (isSplitPoint_lt hm), hm⟩) hlast

theorem check_packages_perm (pinfo : String → PyRes (Option Info))
    (pver : String → PyRes (Option String)) (su : Bool) :
    ∀ (pkgs w a n : List String),
      check_packages pinfo pver su pkgs = .ok (w, a, n) →
      (w ++ a ++ n).Perm pkgs := by
  intro pkgs
  induction pkgs with
  | nil =>
    intro w a n h
    simp [check_packages] at h
    obtain ⟨hw, ha, hn⟩ := h
    subst hw; subst ha; subst hn
    simp
  | cons name rest ih =>
    intro w a n h
    rw [check_packages] at h
    cases hpi : pinfo name with
    | exn => simp only [hpi] at h; cases h
    | ok oi =>
      simp only [hpi] at h
      cases oi with
      | none =>
        cases hrec : check_packages pinfo pver su rest with
        | exn => simp only [hrec] at h; cases h
        | ok t =>
          obtain ⟨w0, a0, n0⟩ := t
          simp only [hrec, PyRes.ok.injEq, Prod.mk.injEq] at h
          obtain ⟨hw, ha, hn⟩ := h
          subst hw; subst ha; subst hn
          exact List.perm_middle.trans ((ih w0 a0 n0 hrec).cons name)
      | some info =>
        cases hpv : pver name with
        | exn => simp only [hpv] at h; cases h
        | ok iv =>
          simp only [hpv] at h
          cases hcl : classify_one su info iv with
          | exn => simp only [hcl] at h; cases h
          | ok b =>
            simp only [hcl] at h
            cases hrec : check_packages pinfo pver su rest with
            | exn => simp only [hrec] at h; cases h
            | ok t =>
              obtain ⟨w0, a0, n0⟩ := t
              have hperm := ih w0 a0 n0 hrec
              by_cases hb : b = 0
              · simp only [hrec, hb, if_pos, PyRes.ok.injEq, Prod.mk.injEq] at h
                obtain ⟨hw, ha, hn⟩ := h
                subst hw; subst ha; subst hn
                exact hperm.cons name
              · simp only [hrec, if_neg hb, PyRes.ok.injEq, Prod.mk.injEq] at h
                obtain ⟨hw, ha, hn⟩ := h
                subst hw; subst ha; subst hn
                exact (List.perm_middle.append_right n0).trans (hperm.cons name)

theorem check_packages_not_found (pinfo : String → PyRes (Option Info))
    (pver : String → PyRes (Option String)) (su : Bool) :
    ∀ (pkgs w a n : List String),
      check_packages pinfo pver su pkgs = .ok (w, a, n) →
      n = pkgs.filter (fun x => decide (pinfo x = .ok none)) := by
  intro pkgs
  induction pkgs with
  | nil =>
    intro w a n h
    simp [check_packages] at h
    obtain ⟨_, _, hn⟩ := h
    subst hn
    simp
  | cons name rest ih =>
    intro w a n h
    rw [check_packages] at h
    cases hpi : pinfo name with
    | exn => simp only [hpi] at h; cases h
    | ok oi =>
      simp only [hpi] at h
      cases oi with
      | none =>
        cases hrec : check_packages pinfo pver su rest with
        | exn => simp only [hrec] at h; cases h
        | ok t =>
          obtain ⟨w0, a0, n0⟩ := t
          simp only [hrec, PyRes.ok.injEq, Prod.mk.injEq] at h
          obtain ⟨hw, ha, hn⟩ := h
          subst hn
          rw [List.filter_cons_of_pos (by simp [hpi]), ih w0 a0 n0 hrec]
      | some info =>
        cases hpv : pver name with
        | exn => simp only [hpv] at h; cases h
        | ok iv =>
          simp only [hpv] at h
          cases hcl : classify_one su info iv with
          | exn => simp only [hcl] at h; cases h
          | ok b =>
            simp only [hcl] at h
            cases hrec : check_packages pinfo pver su rest with
            | exn => simp only [hrec] at h; cases h
            | ok t =>
              obtain ⟨w0, a0, n0⟩ := t
              rw [List.filter_cons_of_neg (by simp [hpi])]
              by_cases hb : b = 0
              · simp only [hrec, hb, if_pos, PyRes.ok.injEq, Prod.mk.injEq] at h
                obtain ⟨_, _, hn⟩ := h
                subst hn
                exact ih w0 a0 n0 hrec
              · simp only [hrec, if_neg hb, PyRes.ok.injEq, Prod.mk.injEq] at h
                obtain ⟨_, _, hn⟩ := h
                subst hn
                exact ih w0 a0 n0 hrec

theorem check_packages_pver_congr (pinfo : String → PyRes (Option Info))
    (pver1 pver2 : String → PyRes (Option String)) (su : Bool)
    (hagree : ∀ x, pinfo x ≠ .ok none → pver1 x = pver2 x) :
    ∀ pkgs, check_packages pinfo pver1 su pkgs = check_packages pinfo pver2 su pkgs := by
  intro pkgs
  induction pkgs with
  | nil => rfl
  | cons name rest ih =>
    rw [check_packages, check_packages]
    cases hpi : pinfo name with
    | exn => rfl
    | ok oi =>
      cases oi with
      | none => rw [ih]
      | some info => rw [← hagree name (by simp [hpi]), ih]

theorem install_loop_fail (e : ExecEnv) (base : String) (name : String) (post : List String)
    (hname : (e.runCommand (base ++ " -S " ++ name)).1 ≠ 0) :
    ∀ (pre : List String) (total : Nat),
      (∀ x ∈ pre, (e.runCommand (base ++ " -S " ++ x)).1 = 0) →
      install_loop e base (pre ++ name :: post) total =
        .failJson ("failed to install package " ++ name ++ ": " ++
          (e.runCommand (base ++ " -S " ++ name)).2.2 ++
          (if switched_user e then ""
           else " (do you have passwordless sudo as user " ++ pctS e.login_name ++ "?)")) := by
  intro pre
  induction pre with
  | nil =>
    intro total _
    simp only [List.nil_append]
    rw [install_loop, if_pos hname]
  | cons x pre ih =>
    intro total hpre
    have h0 : (e.runCommand (base ++ " -S " ++ x)).1 = 0 := hpre x (List.mem_cons_self x pre)
    rw [List.cons_append, install_loop, if_neg (by simp [h0])]
    exact ih (total + 1) (fun y hy => hpre y (List.mem_cons_of_mem x hy))

theorem mapFindall_eq_none :
    ∀ {l : List String} {x : String}, x ∈ l → findall_split x = none →
      mapFindall l = none := by
  intro l
  induction l with
  | nil => intro x hx; simp at hx
  | cons y rest ih =>
    intro x hx hfx
    rcases List.mem_cons.mp hx with h | h
    · subst h
      rw [mapFindall, hfx]
    · rw [mapFindall]
      cases hfy : findall_split y with
      | none => rfl
      | some kv => rw [ih h hfx]

theorem decide_one_le_length {α : Type} (l : List α) :
    decide (1 ≤ l.length) = !l.isEmpty := by
  cases l <;> simp

/-! Theorems for the individual claims. -/

/-- Claim C1 (code bug): the claim and the module documentation say that
under desired state latest an installed package whose version differs
from the remote metadata version is placed in the needs-change bucket.
The code disagrees: should_update compares the bound method object
rather than its call result with the string "latest" and lacks a return
statement, so it returns the falsy None, and check_packages therefore
takes the present-style branch.  At the failing input (cower installed
at 1.0, remote version 2.0, state latest) the name lands in
already_present instead of would_change. -/
theorem latest_mismatch_already_present :
    truthy should_update = false ∧
    check_packages
      (fun n => if n = "cower" then .ok (some [("version", "2.0")]) else .ok none)
      (fun _ => .ok (some "1.0")) (truthy should_update) ["cower"] =
      .ok ([], ["cower"], []) := by decide

/-- Claim C2 counterexample: in check mode with a non-empty not_found
bucket the run exits via exit_json with the joined message and the
computed changed flag; it is not reported as fatal, because the check
mode branch is taken before the failed branch. -/
theorem check_mode_not_found_nonfatal :
    run true (some "present") none (fun _ => .ok none) (fun _ => .ok none)
      (fun _ => .failJson "unreachable") (some ["aura"]) =
      .ok (.exitJson false "all packages already present; could not find aura") ∧
    run true (some "present") none (fun _ => .ok none) (fun _ => .ok none)
      (fun _ => .failJson "unreachable") (some ["aura"]) ≠
      .ok (.failJson "could not find aura") := by decide

/-- Claim C2 (amended): outside check mode, whenever the not_found bucket
is non-empty the run is fatal with the could-not-find clause as the
error; in check mode the clause is merely joined into the exit message. -/
theorem run_not_found_fatal (state : Option String) (upg : Option Bool)
    (pinfo : String → PyRes (Option Info)) (pver : String → PyRes (Option String))
    (inst : List String → RunResult) (names : Option (List String))
    (w a n : List String)
    (h : check_packages pinfo pver (truthy should_update) (names.getD []) = .ok (w, a, n))
    (hn : n ≠ []) :
    run false state upg pinfo pver inst names =
      .ok (.failJson ("could not find " ++ String.intercalate ", " n)) := by
  have hlen : 1 ≤ n.length := by
    cases n with
    | nil => exact absurd rfl hn
    | cons x tl => simp
  simp only [run, h]
  simp [hlen, pctS]

/-- Witness for run_not_found_fatal at a concrete input. -/
theorem run_not_found_fatal_witness :
    run false (some "present") none (fun _ => .ok none) (fun _ => .ok none)
      (fun _ => .failJson "unreachable") (some ["aura"]) =
      .ok (.failJson ("could not find " ++ String.intercalate ", " ["aura"])) :=
  run_not_found_fatal (some "present") none (fun _ => .ok none) (fun _ => .ok none)
    (fun _ => .failJson "unreachable") (some ["aura"]) [] [] ["aura"]
    (by decide) (by decide)

/-- Claim C3 counterexample: on the line a : b : c, which contains a
colon surrounded by whitespace inside the value that the claim predicts,
the parser does not split at the first delimiter (which would give key a
and value b : c); the greedy leading group makes it split at the last
delimiter, giving normalized key a_:_b and value c. -/
theorem kv_split_counterexample :
    package_info_of 0 "a : b : c" = .ok (some [("a_:_b", "c")]) ∧
    package_info_of 0 "a : b : c" ≠ .ok (some [("a", "b : c")]) := by decide

/-- Claim C3 (amended): the key/value splitter chooses the last, not the
first, colon-preceded-by-whitespace position of the line: whenever some
delimiter position exists, the regex match succeeds, the chosen position
is maximal among all delimiter positions, the first group is everything
before the single whitespace character preceding the chosen colon, and
the second group is everything after the colon with leading whitespace
consumed. -/
theorem findall_split_chooses_last (line : String) (j : Nat)
    (h : isSplitPoint line.data j = true) :
    ∃ j2, j ≤ j2 ∧ isSplitPoint line.data j2 = true ∧
      (∀ m, isSplitPoint line.data m = true → m ≤ j2) ∧
      findall_split line = some (String.mk (line.data.take (j2 - 1)),
        String.mk ((line.data.drop (j2 + 1)).dropWhile isPySpace)) := by
  obtain ⟨j2, hlast, hsp, hle, hmax⟩ := lastSplitPoint_spec h
  exact ⟨j2, hle, hsp, hmax, by rw [findall_split.eq_def, hlast]⟩

/-- Witness for findall_split_chooses_last at the line a : b : c with the
delimiter at position 2. -/
theorem findall_split_chooses_last_witness :
    isSplitPoint ("a : b : c" : String).data 2 = true ∧
    (∃ j2, 2 ≤ j2 ∧ isSplitPoint ("a : b : c" : String).data j2 = true ∧
      (∀ m, isSplitPoint ("a : b : c" : String).data m = true → m ≤ j2) ∧
      findall_split "a : b : c" = some (String.mk (("a : b : c" : String).data.take (j2 - 1)),
        String.mk ((("a : b : c" : String).data.drop (j2 + 1)).dropWhile isPySpace))) :=
  ⟨by decide, findall_split_chooses_last "a : b : c" 2 (by decide)⟩

/-- Claim C4 counterexample: when os.getlogin succeeds and returns root
while SUDO_USER is set to alice, the resolved identity is root, not the
SUDO_USER value the claim predicts, because the SUDO_USER fallback lives
inside the OSError handler. -/
theorem getlogin_root_counterexample :
    login_name ⟨some "root", none, 0, "", none, some "alice"⟩ = some "root" ∧
    login_name ⟨some "root", none, 0, "", none, some "alice"⟩ ≠ some "alice" := by decide

/-- Claim C4 (amended): a successful os.getlogin value is returned
unconditionally, even when it is the superuser; only when os.getlogin
raises OSError do the logname query and the LOGNAME variable run, and
SUDO_USER is applied exactly when that fallback resolved to the
superuser or to nothing. -/
theorem login_name_resolution (e : LoginEnv) :
    (∀ s, e.getlogin = some s → login_name e = some s) ∧
    (e.getlogin = none →
      (login_name_fallback e = none ∨ login_name_fallback e = some "root") →
      ∀ u, e.SUDO_USER = some u → login_name e = some u) ∧
    (e.getlogin = none → ∀ x, login_name_fallback e = some x → x ≠ "root" →
      login_name e = some x) := by
  refine ⟨fun s hs => ?_, fun hg hfb u hu => ?_, fun hg x hx hxr => ?_⟩
  · rw [login_name, hs]
  · rw [login_name, hg]
    simp only [hfb, hu]
    rcases hfb with hfb | hfb <;> simp [hfb, hu]
  · rw [login_name, hg]
    have : ¬(login_name_fallback e = none ∨ login_name_fallback e = some "root") := by
      simp [hx, hxr]
    simp [this, hx]
    intro hxr2
    exact absurd hxr2 hxr

/-- Witness for login_name_resolution covering all three conjuncts at
concrete environments. -/
theorem login_name_resolution_witness :
    login_name ⟨some "root", none, 0, "", none, some "alice"⟩ = some "root" ∧
    login_name ⟨none, none, 0, "", some "root", some "alice"⟩ = some "alice" ∧
    login_name ⟨none, none, 0, "", some "bob", none⟩ = some "bob" :=
  ⟨(login_name_resolution ⟨some "root", none, 0, "", none, some "alice"⟩).1 "root" rfl,
   (login_name_resolution ⟨none, none, 0, "", some "root", some "alice"⟩).2.1 rfl
     (by decide) "alice" rfl,
   (login_name_resolution ⟨none, none, 0, "", some "bob", none⟩).2.2 rfl "bob"
     (by decide) (by decide)⟩

/-- Claim C5: classification places every requested name occurrence in
exactly one of the three buckets (the concatenated buckets are a
permutation of the requested list, duplicates preserved); the not_found
bucket is exactly the sublist of names whose remote metadata lookup
returned none, regardless of desired state or installed state; and the
result is unchanged under any modification of the installed-version
oracle on names whose remote metadata lookup returned none, since no
installed-version lookup is performed for them. -/
theorem check_packages_partition (pinfo : String → PyRes (Option Info))
    (pver pver2 : String → PyRes (Option String)) (su : Bool)
    (pkgs w a n : List String) :
    (check_packages pinfo pver su pkgs = .ok (w, a, n) →
      (w ++ a ++ n).Perm pkgs ∧
      n = pkgs.filter (fun x => decide (pinfo x = .ok none))) ∧
    ((∀ x, pinfo x ≠ .ok none → pver x = pver2 x) →
      check_packages pinfo pver su pkgs = check_packages pinfo pver2 su pkgs) :=
  ⟨fun h => ⟨check_packages_perm pinfo pver su pkgs w a n h,
             check_packages_not_found pinfo pver su pkgs w a n h⟩,
   fun hag => check_packages_pver_congr pinfo pver pver2 su hag pkgs⟩

/-- Witness for check_packages_partition at a concrete input with three
names of which the middle one is not found. -/
theorem check_packages_partition_witness :
    (((["foo", "bar"] : List String) ++ [] ++ ["baz"]).Perm ["foo", "baz", "bar"] ∧
      ["baz"] = (["foo", "baz", "bar"] : List String).filter
        (fun x => decide ((if x = "baz" then (.ok none : PyRes (Option Info))
          else .ok (some [("version", "1")])) = .ok none))) ∧
    check_packages
        (fun x => if x = "baz" then (.ok none : PyRes (Option Info))
          else .ok (some [("version", "1")]))
        (fun _ => .ok none) false ["foo", "baz", "bar"] =
      check_packages
        (fun x => if x = "baz" then (.ok none : PyRes (Option Info))
          else .ok (some [("version", "1")]))
        (fun _ => .ok none) false ["foo", "baz", "bar"] :=
  ⟨(check_packages_partition
      (fun x => if x = "baz" then (.ok none : PyRes (Option Info))
        else .ok (some [("version", "1")]))
      (fun _ => .ok none) (fun _ => .ok none) false
      ["foo", "baz", "bar"] ["foo", "bar"] [] ["baz"]).1 (by decide),
   (check_packages_partition
      (fun x => if x = "baz" then (.ok none : PyRes (Option Info))
        else .ok (some [("version", "1")]))
      (fun _ => .ok none) (fun _ => .ok none) false
      ["foo", "baz", "bar"] ["foo", "bar"] [] ["baz"]).2 (fun x hx => rfl)⟩

/-- Claim C6: in check mode the run result does not depend on the
installer at all (no mutating invocation happens, only the query oracles
are consulted), and the reported changed flag is true exactly when the
would-update bucket is non-empty. -/
theorem run_check_mode_no_executor (state : Option String) (upg : Option Bool)
    (pinfo : String → PyRes (Option Info)) (pver : String → PyRes (Option String))
    (inst1 inst2 : List String → RunResult) (names : Option (List String))
    (w a n : List String) :
    run true state upg pinfo pver inst1 names = run true state upg pinfo pver inst2 names ∧
    (check_packages pinfo pver (truthy should_update) (names.getD []) = .ok (w, a, n) →
      ∃ m, run true state upg pinfo pver inst1 names = .ok (.exitJson (!w.isEmpty) m)) := by
  constructor
  · simp only [run]
    cases h : check_packages pinfo pver (truthy should_update) (names.getD []) with
    | exn => rfl
    | ok t =>
      obtain ⟨w0, a0, n0⟩ := t
      simp
  · intro h
    refine ⟨String.intercalate "; " (List.filterMap id
      [some (if 1 ≤ w.length then "would update " ++ String.intercalate ", " w
             else "all packages already " ++ pctS (normalized_state state)),
       if 1 ≤ a.length then
         some (String.intercalate ", " a ++ " already " ++ pctS (normalized_state state))
       else none,
       if 1 ≤ n.length then some ("could not find " ++ String.intercalate ", " n)
       else none]), ?_⟩
    simp only [run, h, decide_one_le_length, if_true]

/-- Witness for run_check_mode_no_executor with two different installers
and one name needing change. -/
theorem run_check_mode_no_executor_witness :
    run true (some "present") none
        (fun _ => .ok (some [("version", "1.0")])) (fun _ => .ok none)
        (fun _ => .failJson "x") (some ["foo"]) =
      run true (some "present") none
        (fun _ => .ok (some [("version", "1.0")])) (fun _ => .ok none)
        (fun _ => .exitJson true "y") (some ["foo"]) ∧
    ∃ m, run true (some "present") none
        (fun _ => .ok (some [("version", "1.0")])) (fun _ => .ok none)
        (fun _ => .failJson "x") (some ["foo"]) =
      .ok (.exitJson (!(["foo"] : List String).isEmpty) m) :=
  ⟨(run_check_mode_no_executor (some "present") none
      (fun _ => .ok (some [("version", "1.0")])) (fun _ => .ok none)
      (fun _ => .failJson "x") (fun _ => .exitJson true "y") (some ["foo"])
      ["foo"] [] []).1,
   (run_check_mode_no_executor (some "present") none
      (fun _ => .ok (some [("version", "1.0")])) (fun _ => .ok none)
      (fun _ => .failJson "x") (fun _ => .exitJson true "y") (some ["foo"])
      ["foo"] [] []).2 (by decide)⟩

/-- Claim C7: with the upgrade parameter set, a non-zero exit of the
full-system synchronize-and-upgrade invocation fails the whole run with
the upgrade error message, and the result is then independent of the
package list, so no per-package install is attempted; a zero exit with
an empty package list terminates the run successfully at once with
changed true and the upgraded-AUR-packages message. -/
theorem install_bulk_upgrade (e : ExecEnv) (p1 p2 : Option (List String))
    (rc : Nat) (out err : String)
    (hsudo : (switched_user e && e.sudo_path.isNone) = false)
    (hcmd : e.runCommand (base_cmd e ++ " -Syu") = (rc, out, err)) :
    (rc ≠ 0 →
      install_packages e true p1 = .failJson ("failed to upgrade packages: " ++ err) ∧
      install_packages e true p1 = install_packages e true p2) ∧
    (rc = 0 → install_packages e true (some []) = .exitJson true "upgraded AUR packages") := by
  constructor
  · intro hrc
    constructor
    · simp only [install_packages, hsudo, hcmd, if_false, if_true, Bool.false_eq_true,
        if_neg, hrc, ite_true]
      simp [hrc]
    · simp only [install_packages, hsudo, hcmd, Bool.false_eq_true, if_false]
      simp [hrc]
  · intro hrc
    simp only [install_packages, hsudo, hcmd, Bool.false_eq_true, if_false]
    simp [hrc]

/-- Witness for install_bulk_upgrade: the failing bulk upgrade at two
different package lists, and the terminal success with no names. -/
theorem install_bulk_upgrade_witness :
    (install_packages envBulkFail true (some ["x"]) =
        .failJson ("failed to upgrade packages: " ++ "boom") ∧
      install_packages envBulkFail true (some ["x"]) =
        install_packages envBulkFail true (some ["y"])) ∧
    install_packages envBulkOk true (some []) = .exitJson true "upgraded AUR packages" :=
  ⟨(install_bulk_upgrade envBulkFail (some ["x"]) (some ["y"]) 1 "" "boom"
      (by decide) (by decide)).1 (by decide),
   (install_bulk_upgrade envBulkOk (some []) (some []) 0 "" ""
      (by decide) (by decide)).2 rfl⟩

/-- Claim C8: per-package installs run in request order; when every name
before some failing name succeeds and that name exits non-zero, the run
fails with a message naming that package and carrying its stderr, with
the passwordless-sudo hint appended exactly when no privilege switch was
used; and the result is unchanged under any modification of the command
runner on the names after the failing one, so they are never attempted. -/
theorem install_per_package_failure (e : ExecEnv) (g : String → Nat × String × String)
    (pre post : List String) (name : String)
    (hsudo : (switched_user e && e.sudo_path.isNone) = false)
    (hpre : ∀ x ∈ pre, (e.runCommand (base_cmd e ++ " -S " ++ x)).1 = 0)
    (hname : (e.runCommand (base_cmd e ++ " -S " ++ name)).1 ≠ 0) :
    install_packages e false (some (pre ++ name :: post)) =
      .failJson ("failed to install package " ++ name ++ ": " ++
        (e.runCommand (base_cmd e ++ " -S " ++ name)).2.2 ++
        (if switched_user e then ""
         else " (do you have passwordless sudo as user " ++ pctS e.login_name ++ "?)")) ∧
    ((∀ x ∈ pre, g (base_cmd e ++ " -S " ++ x) = e.runCommand (base_cmd e ++ " -S " ++ x)) →
      g (base_cmd e ++ " -S " ++ name) = e.runCommand (base_cmd e ++ " -S " ++ name) →
      install_packages { e with runCommand := g } false (some (pre ++ name :: post)) =
        install_packages e false (some (pre ++ name :: post))) := by
  have hmain : install_packages e false (some (pre ++ name :: post)) =
      .failJson ("failed to install package " ++ name ++ ": " ++
        (e.runCommand (base_cmd e ++ " -S " ++ name)).2.2 ++
        (if switched_user e then ""
         else " (do you have passwordless sudo as user " ++ pctS e.login_name ++ "?)")) := by
    simp only [install_packages, hsudo, Bool.false_eq_true, if_false]
    exact install_loop_fail e (base_cmd e) name post hname pre 0 hpre
  refine ⟨hmain, fun hg hgname => ?_⟩
  have hsw : switched_user { e with runCommand := g } = switched_user e := rfl
  have hbc : base_cmd { e with runCommand := g } = base_cmd e := rfl
  have hmain2 : install_packages { e with runCommand := g } false (some (pre ++ name :: post)) =
      .failJson ("failed to install package " ++ name ++ ": " ++
        (g (base_cmd e ++ " -S " ++ name)).2.2 ++
        (if switched_user e then ""
         else " (do you have passwordless sudo as user " ++ pctS e.login_name ++ "?)")) := by
    simp only [install_packages, hsw, hbc, hsudo, Bool.false_eq_true, if_false]
    exact install_loop_fail { e with runCommand := g } (base_cmd e) name post
      (by show (g (base_cmd e ++ " -S " ++ name)).1 ≠ 0
          rw [hgname]; exact hname) pre 0
      (fun x hx => by
        show (g (base_cmd e ++ " -S " ++ x)).1 = 0
        rw [hg x hx]; exact hpre x hx)
  rw [hmain, hmain2, hgname]

/-- Witness for install_per_package_failure: three names of which the
second fails. -/
theorem install_per_package_failure_witness :
    install_packages envInstallFail false (some (["a"] ++ "b" :: ["c"])) =
      .failJson ("failed to install package " ++ "b" ++ ": " ++
        (envInstallFail.runCommand (base_cmd envInstallFail ++ " -S " ++ "b")).2.2 ++
        (if switched_user envInstallFail then ""
         else " (do you have passwordless sudo as user " ++
           pctS envInstallFail.login_name ++ "?)")) ∧
    install_packages { envInstallFail with runCommand := envInstallFail.runCommand }
        false (some (["a"] ++ "b" :: ["c"])) =
      install_packages envInstallFail false (some (["a"] ++ "b" :: ["c"])) :=
  ⟨(install_per_package_failure envInstallFail envInstallFail.runCommand
      ["a"] ["c"] "b" (by decide) (by decide) (by decide)).1,
   (install_per_package_failure envInstallFail envInstallFail.runCommand
      ["a"] ["c"] "b" (by decide) (by decide) (by decide)).2
     (fun x hx => rfl) rfl⟩

/-- Claim C10 counterexample: on the line a colon-b, where the colon is
preceded but not followed by whitespace, the claim predicts an
IndexError since no colon is surrounded by whitespace on both sides; the
regex only requires whitespace before the colon, so parsing succeeds. -/
theorem colon_preceded_counterexample :
    package_info_of 0 "a :b" = .ok (some [("a", "b")]) ∧
    package_info_of 0 "a :b" ≠ .exn := by decide

/-- Claim C10 (amended): the query operations are not total: when the
remote metadata query exits zero and its output, after continuation-line
folding, contains a non-empty accumulated line with no
colon-preceded-by-whitespace delimiter, parsing raises IndexError; and
when the installed-version query exits zero with empty output, the first
line index raises IndexError. -/
theorem parser_not_total :
    (∀ (stdout l : String), l ∈ accLines [] (splitlines stdout) → l ≠ "" →
      lastSplitPoint l.data = none → package_info_of 0 stdout = .exn) ∧
    package_installed_version_of 0 "" = .exn := by
  constructor
  · intro stdout l hmem hne hnone
    have hfs : findall_split l = none := by rw [findall_split.eq_def, hnone]
    have hmem2 : l ∈ (accLines [] (splitlines stdout)).filter (fun x => x != "") :=
      List.mem_filter.mpr ⟨hmem, by simp [hne]⟩
    rw [package_info_of]
    simp only [ne_eq, not_true_eq_false, if_false, ite_false, if_neg]
    rw [mapFindall_eq_none hmem2 hfs]
  · decide

/-- Witness for parser_not_total at the single-line output foo. -/
theorem parser_not_total_witness :
    package_info_of 0 "foo" = .exn ∧ package_installed_version_of 0 "" = .exn :=
  ⟨parser_not_total.1 "foo" "foo" (by decide) (by decide) (by decide),
   parser_not_total.2⟩

end Packer

namespace ActionModule

/-- The module-selection test of ActionModule.run in the action plugin:
the pacman module handles the absent and removed states, the packer
module everything else. -/
def choose_module (st : Option String) : String :=
  if st = some "absent" ∨ st = some "removed" then "pacman" else "packer"

/-- ActionModule.run of the action plugin: reads the state entry of the
task arguments, picks the module, and forwards the arguments unchanged as
module_args. -/
def run (args : List (String × String)) : String × List (String × String) :=
  (choose_module (Packer.lookupLast args "state"), args)

/-- Claim C9: when the state argument is absent or removed, the action
plugin delegates the whole invocation to the pacman module with the task
arguments forwarded unchanged, performing no classification of its own;
for every other state the packer module handles the invocation, again
with unchanged arguments. -/
theorem removal_delegation (args : List (String × String)) :
    ((Packer.lookupLast args "state" = some "absent" ∨
        Packer.lookupLast args "state" = some "removed") →
      ActionModule.run args = ("pacman", args)) ∧
    (¬(Packer.lookupLast args "state" = some "absent" ∨
        Packer.lookupLast args "state" = some "removed") →
      ActionModule.run args = ("packer", args)) := by
  constructor
  · intro h
    rw [ActionModule.run, choose_module, if_pos h]
  · intro h
    rw [ActionModule.run, choose_module, if_neg h]

/-- Witness for removal_delegation at an absent and a present request. -/
theorem removal_delegation_witness :
    ActionModule.run [("state", "absent"), ("name", "cower,meat")] =
      ("pacman", [("state", "absent"), ("name", "cower,meat")]) ∧
    ActionModule.run [("state", "present"), ("name", "cower")] =
      ("packer", [("state", "present"), ("name", "cower")]) :=
  ⟨(removal_delegation [("state", "absent"), ("name", "cower,meat")]).1 (by decide),
   (removal_delegation [("state", "present"), ("name", "cower")]).2 (by decide)⟩

end ActionModule
